import Mathlib

/-!
Verification of the PMPipelineApp streaming telemetry core against its
natural-language specification.

The development shallowly embeds the two components the claims concern:

* `src/data_simulator/sensor_simulator.py` — the per-device signal
  generator (`SensorSimulator.__init__`, `generate_sensor_reading`,
  `_generate_value`).
* `src/data_ingestion/kafka_consumer.py` — the buffering consumer
  (`SensorDataConsumer._process_message`, `_save_buffer`,
  `_save_all_buffers`, and the poll loop of `start_consuming`).

Python floats are idealised as rationals (`ℚ`).  Calls to the `random`
module are modelled by a record of unit-interval draws, one field per call
site, plus a `Fin 4` draw standing for `random.choice` over the
four-element anomaly-channel list.  Calls to `datetime.now()` are modelled
by explicit `Instant` arguments: `generate_sensor_reading` performs two
such calls (line 37 for the recorded timestamp, line 44 for the
hour/weekday used by the cyclical multipliers), so the embedding takes two
instants.  `np.sin (np.pi * hour / 12)` is transcendental, hence it is
abstracted as an explicit function parameter `sinq : ℕ → ℚ`, `sinq h`
standing for `sin (π h / 12)`; every theorem quantifies over `sinq`, and
concrete instantiations only use hours at which the abstraction is exact.
Python's `round(x, n)` (round-half-to-even on the idealised value) is
modelled by `pyRound`.  The CSV file name derived from the wall clock in
`_save_buffer` is not part of any claim and is not recorded in the
persistence log.
-/

namespace PMPipeline

/-- Wall-clock instant, as observed by one `datetime.now()` call: `stamp`
identifies the full instant (the `isoformat()` string recorded in the
reading), `hour` is `.hour`, `weekday` is `.weekday()`. -/
structure Instant where
  stamp : ℕ
  hour : ℕ
  weekday : ℕ
deriving DecidableEq, Repr

/-- One unit-interval draw per `random` call site of
`generate_sensor_reading` (two per `_generate_value` call), plus the
`random.choice` index over the anomaly-channel list. -/
structure TickRandoms where
  uTempBase : ℚ
  uTempNoise : ℚ
  uVibBase : ℚ
  uVibNoise : ℚ
  uPressBase : ℚ
  uPressNoise : ℚ
  uNoiseBase : ℚ
  uNoiseNoise : ℚ
  uAnomTrigger : ℚ
  anomChannel : Fin 4
  uAnomMag : ℚ
deriving DecidableEq, Repr

/-- The mutable per-device state of `SensorSimulator`: identity, current
`health_score`, and the `degradation_rate` fixed at construction. -/
structure EquipmentState where
  equipmentId : String
  healthScore : ℚ
  degradationRate : ℚ
deriving DecidableEq, Repr

/-- The reading dict built at lines 100–108 of `sensor_simulator.py`. -/
structure SensorReading where
  equipmentId : String
  timestamp : Instant
  temperature : ℚ
  vibration : ℚ
  pressure : ℚ
  noiseLevel : ℚ
  healthScore : ℚ
deriving DecidableEq, Repr

/-- The four channel values held in the local variables `temperature`,
`vibration`, `pressure`, `noise_level` of `generate_sensor_reading`. -/
structure Channels where
  temperature : ℚ
  vibration : ℚ
  pressure : ℚ
  noiseLevel : ℚ
deriving DecidableEq, Repr

/-- The four sensor channels, as named in the anomaly-channel list at
line 89 of `sensor_simulator.py`. -/
inductive Channel where
  | temperature
  | vibration
  | pressure
  | noiseLevel
deriving DecidableEq, Repr

/-- Round-half-to-even to an integer, the tie rule of Python `round`. -/
def roundHalfEven (x : ℚ) : ℤ :=
  if x - ⌊x⌋ = 1 / 2 then (if (2 : ℤ) ∣ ⌊x⌋ then ⌊x⌋ else ⌊x⌋ + 1) else round x

/-- Python `round(x, n)` on the idealised rational value. -/
def pyRound (x : ℚ) (n : ℕ) : ℚ :=
  (roundHalfEven (x * 10 ^ n) : ℚ) / 10 ^ n

/-- Python `random.uniform(a, b)` given the unit draw `u`:
`a + (b - a) * u`. -/
def uniform (a b u : ℚ) : ℚ :=
  a + (b - a) * u

/-- `SensorSimulator._generate_value` (lines 112–116): one base draw from
the normal range, scaled by the multiplier, plus the health effect, plus a
symmetric noise draw. -/
def generateValue (normalRange : ℚ × ℚ) (baseMultiplier healthEffect noiseLevel : ℚ)
    (uBase uNoise : ℚ) : ℚ :=
  uniform normalRange.1 normalRange.2 uBase * baseMultiplier + healthEffect
    + uniform (-noiseLevel) noiseLevel uNoise

/-- Daily pattern (line 49): `1.0 + 0.2 * np.sin(np.pi * hour / 12)`,
with the sine abstracted as `sinq`. -/
def timeFactor (sinq : ℕ → ℚ) (hour : ℕ) : ℚ :=
  1 + (1 / 5) * sinq hour

/-- Weekly pattern (line 52): `1.0 + 0.1 * (1 if day_of_week < 5 else -1)`. -/
def dayFactor (weekday : ℕ) : ℚ :=
  1 + (1 / 10) * (if weekday < 5 then 1 else -1)

/-- Health degradation factor (line 55): `(100 - health_score) / 100`. -/
def healthFactorOf (health : ℚ) : ℚ :=
  (100 - health) / 100

/-- Health update of one tick (lines 40–41): decrement by the degradation
rate, then clamp at the floor 0. -/
def healthStep (health rate : ℚ) : ℚ :=
  max 0 (health - rate)

/-- Anomaly probability as a function of the health degradation factor
(line 87): `0.01 + health_factor * 0.1`. -/
def pOfFactor (f : ℚ) : ℚ :=
  1 / 100 + f * (1 / 10)

/-- Per-tick anomaly probability as a function of the post-update health
score. -/
def anomalyProb (health : ℚ) : ℚ :=
  pOfFactor (healthFactorOf health)

/-- The list passed to `random.choice` at line 89. -/
def anomalyChannels : List Channel :=
  [Channel.temperature, Channel.vibration, Channel.pressure, Channel.noiseLevel]

/-- `random.choice` over `anomalyChannels`, given the chosen index. -/
def chooseChannel (i : Fin 4) : Channel :=
  anomalyChannels.get ⟨i.val, i.isLt⟩

/-- The anomaly branch (lines 90–97): an additive excursion on the chosen
channel, added for temperature, vibration and noise, subtracted for
pressure. -/
def applyAnomaly (chan : Channel) (uMag : ℚ) (c : Channels) : Channels :=
  match chan with
  | Channel.temperature => { c with temperature := c.temperature + uniform 10 30 uMag }
  | Channel.vibration => { c with vibration := c.vibration + uniform (1 / 2) 2 uMag }
  | Channel.pressure => { c with pressure := c.pressure - uniform 10 30 uMag }
  | Channel.noiseLevel => { c with noiseLevel := c.noiseLevel + uniform 10 20 uMag }

/-- The four pre-anomaly channel samples (lines 58–84), all computed from
one post-update health score and one clock instant. -/
def channelsPreAnomaly (sinq : ℕ → ℚ) (health : ℚ) (t : Instant) (r : TickRandoms) :
    Channels :=
  let hf := healthFactorOf health
  { temperature := generateValue (60, 80) (timeFactor sinq t.hour) (hf * 30) 2
      r.uTempBase r.uTempNoise
    vibration := generateValue (1 / 10, 1 / 2) (dayFactor t.weekday) (hf * (3 / 2)) (1 / 20)
      r.uVibBase r.uVibNoise
    pressure := generateValue (95, 105) 1 (hf * (-15)) 3
      r.uPressBase r.uPressNoise
    noiseLevel := generateValue (60, 75) (dayFactor t.weekday) (hf * 25) 2
      r.uNoiseBase r.uNoiseNoise }

/-- `SensorSimulator.generate_sensor_reading` (lines 34–110).  `now1` is
the `datetime.now()` of line 37 (recorded timestamp), `now2` the
`datetime.now()` of line 44 (hour/weekday for the cyclical multipliers).
Returns the emitted reading together with the successor device state. -/
def generateSensorReading (sinq : ℕ → ℚ) (s : EquipmentState) (r : TickRandoms)
    (now1 now2 : Instant) : SensorReading × EquipmentState :=
  let health := healthStep s.healthScore s.degradationRate
  let c0 := channelsPreAnomaly sinq health now2 r
  let c := if r.uAnomTrigger < anomalyProb health then
      applyAnomaly (chooseChannel r.anomChannel) r.uAnomMag c0
    else c0
  ({ equipmentId := s.equipmentId
     timestamp := now1
     temperature := pyRound c.temperature 2
     vibration := pyRound c.vibration 3
     pressure := pyRound c.pressure 2
     noiseLevel := pyRound c.noiseLevel 2
     healthScore := pyRound health 2 },
   { s with healthScore := health })

/-- `SensorSimulator.__init__` (lines 14–24): health starts at 100, the
degradation rate is one `random.uniform(0.01, 0.05)` draw fixed at
construction, here given its unit draw `u`. -/
def mkSimulator (equipmentId : String) (u : ℚ) : EquipmentState :=
  { equipmentId := equipmentId
    healthScore := 100
    degradationRate := uniform (1 / 100) (1 / 20) u }

/-- Input consumed by one tick: the random draws and the two
`datetime.now()` results. -/
def TickInput : Type := TickRandoms × Instant × Instant

/-- Iterated ticks: thread the device state through a sequence of tick
inputs, as `start_simulation`'s loop does. -/
def runTicks (sinq : ℕ → ℚ) (s : EquipmentState) : List TickInput → EquipmentState
  | [] => s
  | (r, t1, t2) :: rest => runTicks sinq (generateSensorReading sinq s r t1 t2).2 rest

/-- Transcribed from the specification (§4.1 step 4): sample a channel as
`uniform(normal_range) * cyclical_multiplier + health_effect
+ uniform(-noise, noise)`.  Used to compare the source's
`_generate_value` against the specification's sampling formula. -/
def specSample (normalRange : ℚ × ℚ) (cyclicalMultiplier healthEffect noise : ℚ)
    (uBase uNoise : ℚ) : ℚ :=
  uniform normalRange.1 normalRange.2 uBase * cyclicalMultiplier + healthEffect
    + uniform (-noise) noise uNoise

/-- Sine abstraction used to instantiate universally quantified theorems:
constantly 0, which agrees with `sin (π h / 12)` at the hours 0 and 12 —
the only hours concrete instantiations below use. -/
def sinqZero : ℕ → ℚ := fun _ => 0

/-- A concrete instant for instantiations: hour 0, Monday. -/
def instant0 : Instant := ⟨0, 0, 0⟩

/-- A concrete draw record for instantiations; `uAnomTrigger = 1` lies
above every anomaly probability in `[0, 0.11]`, so no anomaly fires. -/
def quietRandoms : TickRandoms :=
  ⟨0, 0, 0, 0, 0, 0, 0, 0, 1, 0, 0⟩

/-- A concrete tick input for instantiations. -/
def quietTick : TickInput := (quietRandoms, instant0, instant0)

/-!
Consumer embedding.  `SensorDataConsumer` keeps `data_buffer`, a Python
dict from equipment id to the list of readings buffered for it, plus the
fixed `buffer_size` threshold.  A Python dict is insertion-ordered with
unique keys, so it is embedded as an association list in which `setBuf`
updates an existing key in place and appends a new key at the end.  Disk
writes performed by `_save_buffer` are recorded in an append-only `saved`
log of flush records.  A polled message matters to `_process_message`
only through the outcome of decoding it: either the `utf-8`/JSON decoding
raises (caught by the `except` at line 79), or it yields a dict whose
`data.get('equipment_id')` is absent or a string; `DecodeResult` captures
exactly that, with the payload type `α` standing for the decoded dict
that gets buffered.
-/

/-- Outcome of decoding one polled message in `_process_message`:
`failure` when `msg.value().decode('utf-8')` or `json.loads` raises, and
`ok eqId payload` for a decoded dict, `eqId` being the result of
`data.get('equipment_id')`. -/
inductive DecodeResult (α : Type) where
  | failure : DecodeResult α
  | ok : Option String → α → DecodeResult α
deriving DecidableEq, Repr

/-- One `_save_buffer` disk write: the equipment key and the buffered
readings written, in buffer order.  (The wall-clock file-name label is
not modelled; no claim concerns it.) -/
structure FlushRecord (α : Type) where
  equipmentId : String
  readings : List α
deriving DecidableEq, Repr

/-- The state of `SensorDataConsumer`: the per-key buffer map, the
append-only log of completed disk writes, and `buffer_size`. -/
structure ConsumerState (α : Type) where
  dataBuffer : List (String × List α)
  saved : List (FlushRecord α)
  bufferSize : ℕ
deriving DecidableEq, Repr

/-- Dict lookup: first (unique) entry with the given key. -/
def lookupBuf {α : Type} : List (String × List α) → String → Option (List α)
  | [], _ => none
  | (k, v) :: rest, k2 => if k = k2 then some v else lookupBuf rest k2

/-- Dict write `d[k] = v`: replace in place when the key exists, append a
new entry otherwise. -/
def setBuf {α : Type} : List (String × List α) → String → List α → List (String × List α)
  | [], k, v => [(k, v)]
  | (k1, v1) :: rest, k, v =>
    if k1 = k then (k, v) :: rest else (k1, v1) :: setBuf rest k v

/-- `SensorDataConsumer._save_buffer` (lines 82–98): if the key is
present with a non-empty buffer, write the buffered readings out and
clear (not delete) the buffer; otherwise do nothing. -/
def saveBuffer {α : Type} (st : ConsumerState α) (equipmentId : String) : ConsumerState α :=
  match lookupBuf st.dataBuffer equipmentId with
  | none => st
  | some [] => st
  | some buf =>
      { st with
        dataBuffer := setBuf st.dataBuffer equipmentId []
        saved := st.saved ++ [⟨equipmentId, buf⟩] }

/-- `SensorDataConsumer._save_all_buffers` (lines 100–103): save every
key's buffer, iterating over a snapshot of the keys in dict order. -/
def saveAllBuffers {α : Type} (st : ConsumerState α) : ConsumerState α :=
  (st.dataBuffer.map Prod.fst).foldl saveBuffer st

/-- `SensorDataConsumer._process_message` (lines 56–80): on a decoded
dict with a truthy `equipment_id`, append it to that key's buffer
(creating the buffer on first use) and save the buffer once its length
reaches `buffer_size`; a decode failure is caught and logged, and a
missing or falsy `equipment_id` skips the buffering block. -/
def processMessage {α : Type} (st : ConsumerState α) : DecodeResult α → ConsumerState α
  | DecodeResult.failure => st
  | DecodeResult.ok none _ => st
  | DecodeResult.ok (some equipmentId) data =>
    if equipmentId = "" then st
    else
      let buf := (lookupBuf st.dataBuffer equipmentId).getD []
      let buf2 := buf ++ [data]
      let st2 : ConsumerState α := { st with dataBuffer := setBuf st.dataBuffer equipmentId buf2 }
      if st2.bufferSize ≤ buf2.length then saveBuffer st2 equipmentId else st2

/-- Process a sequence of polled-and-decoded messages in order, as the
single-threaded poll loop of `start_consuming` does. -/
def runMessages {α : Type} (st : ConsumerState α) : List (DecodeResult α) → ConsumerState α
  | [] => st
  | m :: rest => runMessages (processMessage st m) rest

/-- The consumer state at startup: empty buffer map, nothing saved, the
configured capacity. -/
def initState (α : Type) (capacity : ℕ) : ConsumerState α :=
  ⟨[], [], capacity⟩

/-- `buffer_size` as set at line 26. -/
def defaultBufferSize : ℕ := 100

/-- The messages of a run that target one key: `ps.map (ok (some k))`. -/
def msgsFor {α : Type} (k : String) (ps : List α) : List (DecodeResult α) :=
  ps.map (DecodeResult.ok (some k))

/-- All readings handed to persistence for key `k`, joined across the
saved flush records in the order they were written. -/
def flushedFor {α : Type} (k : String) : List (FlushRecord α) → List α
  | [] => []
  | r :: rest => (if r.equipmentId = k then r.readings else []) ++ flushedFor k rest

/-- The payloads of one decoded message that reach the buffering block
for key `k`: the dict itself when its `equipment_id` equals `k` and is
truthy, nothing otherwise. -/
def ingestedOne {α : Type} (k : String) : DecodeResult α → List α
  | DecodeResult.ok (some k2) p => if k2 = k ∧ k2 ≠ "" then [p] else []
  | _ => []

/-- The payloads of a message sequence that reach the buffering block for
key `k`, in arrival order. -/
def ingestedFor {α : Type} (k : String) : List (DecodeResult α) → List α
  | [] => []
  | m :: rest => ingestedOne k m ++ ingestedFor k rest

/-- The buffer contents currently held for key `k` (empty when the key
is unknown). -/
def bufD {α : Type} (st : ConsumerState α) (k : String) : List α :=
  (lookupBuf st.dataBuffer k).getD []

/-- Keys of the buffer map are pairwise distinct — the dict invariant. -/
def NodupKeys {α : Type} (st : ConsumerState α) : Prop :=
  (st.dataBuffer.map Prod.fst).Nodup

/-- One poll outcome in `start_consuming`'s loop (lines 33–47): no
message within the timeout, an end-of-partition event, another transport
error, or a message to process. -/
inductive PollEvent (α : Type) where
  | empty : PollEvent α
  | endOfPartition : PollEvent α
  | transportError : PollEvent α
  | message : DecodeResult α → PollEvent α
deriving DecidableEq, Repr

/-- The Consumption Driver's loop state: the `running` flag and the
consumer's buffering state. -/
structure DriverState (α : Type) where
  running : Bool
  consumer : ConsumerState α
deriving DecidableEq, Repr

/-- One iteration of the poll loop body (lines 34–47): empty polls and
transport errors are logged and skipped, a message goes through
`_process_message`; none of these outcomes changes `running`. -/
def pollStep {α : Type} (d : DriverState α) : PollEvent α → DriverState α
  | PollEvent.empty => d
  | PollEvent.endOfPartition => d
  | PollEvent.transportError => d
  | PollEvent.message m => { d with consumer := processMessage d.consumer m }

/-- One log line printed while processing a message: `savedRecords` is
the `print` at line 95 of `_save_buffer`, `processed` the success
`print` at line 77 of `_process_message`, `errorProcessing` the `print`
at line 80 in its `except` handler.  (The interpolated dict and file
path are abstracted away; only which line prints, for which key,
matters to the claims.) -/
inductive LogLine where
  | savedRecords : String → LogLine
  | processed : String → LogLine
  | errorProcessing : LogLine
deriving DecidableEq, Repr

/-- The log lines printed by one `_process_message` call (lines 56–80),
in print order: a caught decode exception prints the error; a decoded
dict with a truthy `equipment_id` prints the flush line (when the
append fills the buffer) and then the processed line; a decoded dict
whose `equipment_id` is missing or falsy skips the whole `if` block and
prints nothing. -/
def processMessageLog {α : Type} (st : ConsumerState α) : DecodeResult α → List LogLine
  | DecodeResult.failure => [LogLine.errorProcessing]
  | DecodeResult.ok none _ => []
  | DecodeResult.ok (some equipmentId) data =>
    if equipmentId = "" then []
    else
      let buf2 := (lookupBuf st.dataBuffer equipmentId).getD [] ++ [data]
      if st.bufferSize ≤ buf2.length then
        [LogLine.savedRecords equipmentId, LogLine.processed equipmentId]
      else [LogLine.processed equipmentId]

/-!
Lemmas about the dict embedding.
-/

@[simp]
theorem lookupBuf_nil {α : Type} (k : String) :
    lookupBuf ([] : List (String × List α)) k = none := rfl

@[simp]
theorem lookupBuf_cons {α : Type} (k1 k : String) (v : List α) (l : List (String × List α)) :
    lookupBuf ((k1, v) :: l) k = if k1 = k then some v else lookupBuf l k := rfl

theorem lookupBuf_setBuf_self {α : Type} (l : List (String × List α)) (k : String) (v : List α) :
    lookupBuf (setBuf l k v) k = some v := by
  induction l with
  | nil => simp [setBuf]
  | cons hd tl ih =>
    obtain ⟨k1, v1⟩ := hd
    by_cases h : k1 = k
    · simp [setBuf, h]
    · simp [setBuf, h, ih]

theorem lookupBuf_setBuf_ne {α : Type} (l : List (String × List α)) (k k2 : String)
    (v : List α) (h : k2 ≠ k) : lookupBuf (setBuf l k v) k2 = lookupBuf l k2 := by
  induction l with
  | nil => simp [setBuf, Ne.symm h]
  | cons hd tl ih =>
    obtain ⟨k1, v1⟩ := hd
    by_cases h1 : k1 = k
    · subst h1
      simp [setBuf, Ne.symm h]
    · simp only [setBuf, if_neg h1, lookupBuf_cons, ih]

theorem mapFst_setBuf_of_some {α : Type} (l : List (String × List α)) (k : String)
    (v w : List α) (h : lookupBuf l k = some w) :
    (setBuf l k v).map Prod.fst = l.map Prod.fst := by
  induction l with
  | nil => simp at h
  | cons hd tl ih =>
    obtain ⟨k1, v1⟩ := hd
    by_cases h1 : k1 = k
    · simp [setBuf, h1]
    · simp only [lookupBuf_cons, if_neg h1] at h
      simp [setBuf, if_neg h1, ih h]

theorem mapFst_setBuf_of_none {α : Type} (l : List (String × List α)) (k : String)
    (v : List α) (h : lookupBuf l k = none) :
    (setBuf l k v).map Prod.fst = l.map Prod.fst ++ [k] := by
  induction l with
  | nil => simp [setBuf]
  | cons hd tl ih =>
    obtain ⟨k1, v1⟩ := hd
    by_cases h1 : k1 = k
    · simp [h1] at h
    · simp only [lookupBuf_cons, if_neg h1] at h
      simp [setBuf, if_neg h1, ih h]

theorem not_mem_of_lookupBuf_none {α : Type} (l : List (String × List α)) (k : String)
    (h : lookupBuf l k = none) : k ∉ l.map Prod.fst := by
  induction l with
  | nil => simp
  | cons hd tl ih =>
    obtain ⟨k1, v1⟩ := hd
    by_cases h1 : k1 = k
    · simp [h1] at h
    · simp only [lookupBuf_cons, if_neg h1] at h
      simp [ih h, Ne.symm h1]

theorem lookupBuf_none_of_not_mem {α : Type} (l : List (String × List α)) (k : String)
    (h : k ∉ l.map Prod.fst) : lookupBuf l k = none := by
  induction l with
  | nil => simp
  | cons hd tl ih =>
    obtain ⟨k1, v1⟩ := hd
    simp only [List.map_cons, List.mem_cons, not_or] at h
    simp [Ne.symm h.1, ih h.2]

theorem exists_lookupBuf_of_mem {α : Type} (l : List (String × List α)) (k : String)
    (h : k ∈ l.map Prod.fst) : ∃ w, lookupBuf l k = some w := by
  induction l with
  | nil => simp at h
  | cons hd tl ih =>
    obtain ⟨k1, v1⟩ := hd
    by_cases h1 : k1 = k
    · exact ⟨v1, by simp [h1]⟩
    · simp only [List.map_cons, List.mem_cons] at h
      rcases h with h | h
      · exact absurd h.symm h1
      · obtain ⟨w, hw⟩ := ih h
        exact ⟨w, by simp [h1, hw]⟩

/-!
Lemmas about flushing and the exactly-once invariant.
-/

@[simp]
theorem flushedFor_nil {α : Type} (k : String) :
    flushedFor k ([] : List (FlushRecord α)) = [] := rfl

@[simp]
theorem flushedFor_cons {α : Type} (k : String) (r : FlushRecord α) (l : List (FlushRecord α)) :
    flushedFor k (r :: l) = (if r.equipmentId = k then r.readings else []) ++ flushedFor k l :=
  rfl

theorem flushedFor_append {α : Type} (k : String) (l1 l2 : List (FlushRecord α)) :
    flushedFor k (l1 ++ l2) = flushedFor k l1 ++ flushedFor k l2 := by
  induction l1 with
  | nil => simp
  | cons r l1 ih => simp [ih]

@[simp]
theorem ingestedFor_nil {α : Type} (k : String) :
    ingestedFor k ([] : List (DecodeResult α)) = [] := rfl

@[simp]
theorem ingestedFor_cons {α : Type} (k : String) (m : DecodeResult α)
    (ms : List (DecodeResult α)) :
    ingestedFor k (m :: ms) = ingestedOne k m ++ ingestedFor k ms := rfl

theorem saveBuffer_of_none {α : Type} (st : ConsumerState α) (k : String)
    (h : lookupBuf st.dataBuffer k = none) : saveBuffer st k = st := by
  simp [saveBuffer, h]

theorem saveBuffer_of_empty {α : Type} (st : ConsumerState α) (k : String)
    (h : lookupBuf st.dataBuffer k = some []) : saveBuffer st k = st := by
  simp [saveBuffer, h]

theorem saveBuffer_of_cons {α : Type} (st : ConsumerState α) (k : String) (p : α) (ps : List α)
    (h : lookupBuf st.dataBuffer k = some (p :: ps)) :
    saveBuffer st k =
      { st with
        dataBuffer := setBuf st.dataBuffer k []
        saved := st.saved ++ [⟨k, p :: ps⟩] } := by
  simp [saveBuffer, h]

theorem saveBuffer_bufferSize {α : Type} (st : ConsumerState α) (k : String) :
    (saveBuffer st k).bufferSize = st.bufferSize := by
  rcases h : lookupBuf st.dataBuffer k with _ | (_ | ⟨p, ps⟩)
  · rw [saveBuffer_of_none st k h]
  · rw [saveBuffer_of_empty st k h]
  · rw [saveBuffer_of_cons st k p ps h]

theorem saveBuffer_mapFst {α : Type} (st : ConsumerState α) (k : String) :
    (saveBuffer st k).dataBuffer.map Prod.fst = st.dataBuffer.map Prod.fst := by
  rcases h : lookupBuf st.dataBuffer k with _ | (_ | ⟨p, ps⟩)
  · rw [saveBuffer_of_none st k h]
  · rw [saveBuffer_of_empty st k h]
  · rw [saveBuffer_of_cons st k p ps h]
    exact mapFst_setBuf_of_some st.dataBuffer k [] _ h

theorem saveBuffer_lookup_ne {α : Type} (st : ConsumerState α) (k k2 : String) (h2 : k2 ≠ k) :
    lookupBuf (saveBuffer st k).dataBuffer k2 = lookupBuf st.dataBuffer k2 := by
  rcases h : lookupBuf st.dataBuffer k with _ | (_ | ⟨p, ps⟩)
  · rw [saveBuffer_of_none st k h]
  · rw [saveBuffer_of_empty st k h]
  · rw [saveBuffer_of_cons st k p ps h]
    exact lookupBuf_setBuf_ne st.dataBuffer k k2 [] h2

theorem saveBuffer_lookup_self {α : Type} (st : ConsumerState α) (k : String) :
    lookupBuf (saveBuffer st k).dataBuffer k
      = (lookupBuf st.dataBuffer k).map (fun _ => []) := by
  rcases h : lookupBuf st.dataBuffer k with _ | (_ | ⟨p, ps⟩)
  · rw [saveBuffer_of_none st k h, h]
    rfl
  · rw [saveBuffer_of_empty st k h, h]
    rfl
  · rw [saveBuffer_of_cons st k p ps h]
    simp [lookupBuf_setBuf_self]

theorem saveBuffer_flushed_self {α : Type} (st : ConsumerState α) (k : String) :
    flushedFor k (saveBuffer st k).saved = flushedFor k st.saved ++ bufD st k := by
  rcases h : lookupBuf st.dataBuffer k with _ | (_ | ⟨p, ps⟩)
  · rw [saveBuffer_of_none st k h]
    simp [bufD, h]
  · rw [saveBuffer_of_empty st k h]
    simp [bufD, h]
  · rw [saveBuffer_of_cons st k p ps h]
    simp [bufD, h, flushedFor_append]

theorem saveBuffer_flushed_ne {α : Type} (st : ConsumerState α) (k k2 : String) (h2 : k2 ≠ k) :
    flushedFor k2 (saveBuffer st k).saved = flushedFor k2 st.saved := by
  rcases h : lookupBuf st.dataBuffer k with _ | (_ | ⟨p, ps⟩)
  · rw [saveBuffer_of_none st k h]
  · rw [saveBuffer_of_empty st k h]
  · rw [saveBuffer_of_cons st k p ps h]
    simp [flushedFor_append, Ne.symm h2]

theorem processMessage_bufferSize {α : Type} (st : ConsumerState α) (m : DecodeResult α) :
    (processMessage st m).bufferSize = st.bufferSize := by
  rcases m with _ | ⟨eid, p⟩
  · rfl
  · rcases eid with _ | eid
    · rfl
    · by_cases he : eid = ""
      · simp [processMessage, he]
      · simp only [processMessage, if_neg he]
        split
        · rw [saveBuffer_bufferSize]
        · rfl

theorem processMessage_nodup {α : Type} (st : ConsumerState α) (m : DecodeResult α)
    (h : NodupKeys st) : NodupKeys (processMessage st m) := by
  rcases m with _ | ⟨eid, p⟩
  · exact h
  · rcases eid with _ | eid
    · exact h
    · by_cases he : eid = ""
      · simpa [processMessage, he] using h
      · simp only [processMessage, if_neg he]
        have hkeys : NodupKeys { st with dataBuffer := setBuf st.dataBuffer eid ((lookupBuf st.dataBuffer eid).getD [] ++ [p]) } := by
          unfold NodupKeys at h ⊢
          rcases hl : lookupBuf st.dataBuffer eid with _ | w
          · rw [mapFst_setBuf_of_none st.dataBuffer eid _ hl]
            refine List.Nodup.append h (by simp) ?_
            intro a ha hb
            simp only [List.mem_singleton] at hb
            rw [hb] at ha
            exact absurd ha (not_mem_of_lookupBuf_none st.dataBuffer eid hl)
          · rw [mapFst_setBuf_of_some st.dataBuffer eid _ w hl]
            exact h
        split
        · unfold NodupKeys
          rw [saveBuffer_mapFst]
          exact hkeys
        · exact hkeys

theorem processMessage_trace {α : Type} (st : ConsumerState α) (m : DecodeResult α)
    (k : String) :
    flushedFor k (processMessage st m).saved ++ bufD (processMessage st m) k
      = flushedFor k st.saved ++ bufD st k ++ ingestedOne k m := by
  rcases m with _ | ⟨eid, p⟩
  · simp [processMessage, ingestedOne]
  · rcases eid with _ | eid
    · simp [processMessage, ingestedOne]
    · by_cases he : eid = ""
      · subst he
        simp [processMessage, ingestedOne]
      · simp only [processMessage, if_neg he]
        set st2 : ConsumerState α := { st with dataBuffer := setBuf st.dataBuffer eid ((lookupBuf st.dataBuffer eid).getD [] ++ [p]) } with hst2
        by_cases hk : eid = k
        · subst hk
          have hing : ingestedOne eid (DecodeResult.ok (some eid) p) = [p] := by
            simp [ingestedOne, he]
          have hbuf2 : bufD st2 eid = bufD st eid ++ [p] := by
            simp [bufD, hst2, lookupBuf_setBuf_self]
          have hsaved2 : st2.saved = st.saved := rfl
          rw [hing]
          split
          · rw [saveBuffer_flushed_self, hsaved2, hbuf2]
            have hemp : bufD (saveBuffer st2 eid) eid = [] := by
              unfold bufD
              rw [saveBuffer_lookup_self]
              rcases lookupBuf st2.dataBuffer eid with _ | w <;> simp
            rw [hemp]
            simp [List.append_assoc]
          · rw [hsaved2, hbuf2]
            simp [List.append_assoc]
        · have hing : ingestedOne k (DecodeResult.ok (some eid) p) = [] := by
            simp [ingestedOne, hk]
          have hbuf2 : bufD st2 k = bufD st k := by
            simp [bufD, hst2, lookupBuf_setBuf_ne st.dataBuffer eid k _ (Ne.symm hk)]
          have hsaved2 : st2.saved = st.saved := rfl
          rw [hing]
          split
          · rw [saveBuffer_flushed_ne st2 eid k (Ne.symm hk), hsaved2]
            have hb : bufD (saveBuffer st2 eid) k = bufD st k := by
              unfold bufD
              rw [saveBuffer_lookup_ne st2 eid k (Ne.symm hk)]
              simp [hst2, lookupBuf_setBuf_ne st.dataBuffer eid k _ (Ne.symm hk)]
            rw [hb]
            simp
          · rw [hsaved2, hbuf2]
            simp

theorem runMessages_trace {α : Type} (ms : List (DecodeResult α)) :
    ∀ (st : ConsumerState α) (k : String),
    flushedFor k (runMessages st ms).saved ++ bufD (runMessages st ms) k
      = flushedFor k st.saved ++ bufD st k ++ ingestedFor k ms := by
  induction ms with
  | nil => intro st k; simp [runMessages]
  | cons m ms ih =>
    intro st k
    simp only [runMessages, ingestedFor_cons]
    rw [ih, processMessage_trace]
    simp [List.append_assoc]

theorem runMessages_nodup {α : Type} (ms : List (DecodeResult α)) :
    ∀ st : ConsumerState α, NodupKeys st → NodupKeys (runMessages st ms) := by
  induction ms with
  | nil => intro st h; exact h
  | cons m ms ih =>
    intro st h
    exact ih _ (processMessage_nodup st m h)

theorem runMessages_bufferSize {α : Type} (ms : List (DecodeResult α)) :
    ∀ st : ConsumerState α, (runMessages st ms).bufferSize = st.bufferSize := by
  induction ms with
  | nil => intro st; rfl
  | cons m ms ih =>
    intro st
    rw [runMessages, ih, processMessage_bufferSize]

theorem foldl_saveBuffer_trace {α : Type} (ks : List String) :
    ∀ (st : ConsumerState α) (k : String), ks.Nodup →
    flushedFor k (ks.foldl saveBuffer st).saved
      = flushedFor k st.saved ++ (if k ∈ ks then bufD st k else []) ∧
    lookupBuf (ks.foldl saveBuffer st).dataBuffer k
      = (if k ∈ ks then (lookupBuf st.dataBuffer k).map (fun _ => []) else
          lookupBuf st.dataBuffer k) := by
  induction ks with
  | nil =>
    intro st k _
    simp
  | cons k1 ks ih =>
    intro st k hnd
    simp only [List.nodup_cons] at hnd
    obtain ⟨hk1, hnd⟩ := hnd
    simp only [List.foldl_cons]
    by_cases hk : k = k1
    · subst hk
      obtain ⟨h1, h2⟩ := ih (saveBuffer st k) k hnd
      rw [h1, h2, if_neg hk1, if_neg hk1]
      constructor
      · rw [saveBuffer_flushed_self]
        simp
      · rw [saveBuffer_lookup_self]
        simp
    · obtain ⟨h1, h2⟩ := ih (saveBuffer st k1) k hnd
      rw [h1, h2]
      have hf : flushedFor k (saveBuffer st k1).saved = flushedFor k st.saved :=
        saveBuffer_flushed_ne st k1 k hk
      have hl : lookupBuf (saveBuffer st k1).dataBuffer k = lookupBuf st.dataBuffer k :=
        saveBuffer_lookup_ne st k1 k hk
      have hb : bufD (saveBuffer st k1) k = bufD st k := by simp [bufD, hl]
      by_cases hks : k ∈ ks
      · simp [hks, hf, hl, hb, List.mem_cons, hk]
      · simp [hks, hf, hl, hb, List.mem_cons, hk]

theorem saveAllBuffers_flushed {α : Type} (st : ConsumerState α) (h : NodupKeys st)
    (k : String) :
    flushedFor k (saveAllBuffers st).saved = flushedFor k st.saved ++ bufD st k := by
  obtain ⟨h1, _⟩ := foldl_saveBuffer_trace (st.dataBuffer.map Prod.fst) st k h
  unfold saveAllBuffers
  by_cases hm : k ∈ st.dataBuffer.map Prod.fst
  · rw [h1, if_pos hm]
  · rw [h1, if_neg hm]
    have hb : bufD st k = [] := by
      simp [bufD, lookupBuf_none_of_not_mem st.dataBuffer k hm]
    rw [hb]

theorem saveAllBuffers_bufD {α : Type} (st : ConsumerState α) (h : NodupKeys st)
    (k : String) : bufD (saveAllBuffers st) k = [] := by
  obtain ⟨_, h2⟩ := foldl_saveBuffer_trace (st.dataBuffer.map Prod.fst) st k h
  unfold saveAllBuffers bufD
  by_cases hm : k ∈ st.dataBuffer.map Prod.fst
  · rw [h2, if_pos hm]
    obtain ⟨w, hw⟩ := exists_lookupBuf_of_mem st.dataBuffer k hm
    rw [hw]
    rfl
  · rw [h2, if_neg hm, lookupBuf_none_of_not_mem st.dataBuffer k hm]
    rfl

theorem processMessage_singleKey_noflush {α : Type} (k : String) (capacity : ℕ)
    (acc : List α) (s0 : List (FlushRecord α)) (p : α) (hk : k ≠ "")
    (hcap : ¬ capacity ≤ acc.length + 1) :
    processMessage (⟨[(k, acc)], s0, capacity⟩ : ConsumerState α) (DecodeResult.ok (some k) p)
      = (⟨[(k, acc ++ [p])], s0, capacity⟩ : ConsumerState α) := by
  simp [processMessage, hk, setBuf, hcap]

theorem processMessage_singleKey_flush {α : Type} (k : String) (capacity : ℕ)
    (acc : List α) (s0 : List (FlushRecord α)) (p : α) (hk : k ≠ "")
    (hcap : capacity ≤ acc.length + 1) :
    processMessage (⟨[(k, acc)], s0, capacity⟩ : ConsumerState α) (DecodeResult.ok (some k) p)
      = (⟨[(k, [])], s0 ++ [⟨k, acc ++ [p]⟩], capacity⟩ : ConsumerState α) := by
  obtain ⟨q, qs, hq⟩ : ∃ q qs, acc ++ [p] = q :: qs := by
    cases acc with
    | nil => exact ⟨p, [], rfl⟩
    | cons a as => exact ⟨a, as ++ [p], rfl⟩
  have hstep : processMessage (⟨[(k, acc)], s0, capacity⟩ : ConsumerState α)
      (DecodeResult.ok (some k) p)
      = saveBuffer (⟨[(k, acc ++ [p])], s0, capacity⟩ : ConsumerState α) k := by
    simp [processMessage, hk, setBuf, hcap]
  rw [hstep, hq, saveBuffer_of_cons _ k q qs (by simp)]
  simp [setBuf]

theorem runMessages_singleKey {α : Type} (ps : List α) :
    ∀ (k : String) (capacity : ℕ) (acc : List α) (s0 : List (FlushRecord α)),
    k ≠ "" → acc.length < capacity → acc.length + ps.length ≤ capacity →
    runMessages (⟨[(k, acc)], s0, capacity⟩ : ConsumerState α) (msgsFor k ps)
      = if acc.length + ps.length = capacity then
          (⟨[(k, [])], s0 ++ [⟨k, acc ++ ps⟩], capacity⟩ : ConsumerState α)
        else (⟨[(k, acc ++ ps)], s0, capacity⟩ : ConsumerState α) := by
  induction ps with
  | nil =>
    intro k capacity acc s0 hk hlt hle
    rw [if_neg (by simp; omega)]
    simp [msgsFor, runMessages]
  | cons p ps ih =>
    intro k capacity acc s0 hk hlt hle
    simp only [msgsFor, List.map_cons, runMessages]
    by_cases hcap : capacity ≤ acc.length + 1
    · have hps0 : ps = [] := by
        have hlen := hle
        simp only [List.length_cons] at hlen
        have hz : ps.length = 0 := by omega
        exact List.length_eq_zero.mp hz
      subst hps0
      rw [if_pos (by simp; omega)]
      rw [processMessage_singleKey_flush k capacity acc s0 p hk hcap]
      simp [runMessages, msgsFor]
    · rw [processMessage_singleKey_noflush k capacity acc s0 p hk hcap]
      have hlt2 : (acc ++ [p]).length < capacity := by simp; omega
      have hle2 : (acc ++ [p]).length + ps.length ≤ capacity := by
        simp only [List.length_append, List.length_cons] at hle ⊢
        simp
        omega
      have := ih k capacity (acc ++ [p]) s0 hk hlt2 hle2
      rw [show msgsFor k ps = List.map (DecodeResult.ok (some k)) ps from rfl] at this
      rw [this]
      by_cases hfin : acc.length + (p :: ps).length = capacity
      · rw [if_pos (by simp at hfin ⊢; omega), if_pos hfin]
        simp
      · rw [if_neg (by simp at hfin ⊢; omega), if_neg hfin]
        simp

theorem processMessage_init_noflush {α : Type} (k : String) (capacity : ℕ) (p : α)
    (hk : k ≠ "") (h1 : ¬ capacity ≤ 1) :
    processMessage (initState α capacity) (DecodeResult.ok (some k) p)
      = (⟨[(k, [p])], [], capacity⟩ : ConsumerState α) := by
  simp [processMessage, initState, hk, setBuf, h1]

theorem processMessage_init_flush {α : Type} (k : String) (capacity : ℕ) (p : α)
    (hk : k ≠ "") (h1 : capacity ≤ 1) :
    processMessage (initState α capacity) (DecodeResult.ok (some k) p)
      = (⟨[(k, [])], [⟨k, [p]⟩], capacity⟩ : ConsumerState α) := by
  have hstep : processMessage (initState α capacity) (DecodeResult.ok (some k) p)
      = saveBuffer (⟨[(k, [p])], [], capacity⟩ : ConsumerState α) k := by
    simp [processMessage, initState, hk, setBuf, h1]
  rw [hstep, saveBuffer_of_cons _ k p [] (by simp)]
  simp [setBuf]

/-- Claim C1: over any sequence of decoded messages followed by the clean
shutdown flush-all, the readings persisted for each equipment key are
exactly the readings ingested for that key, in ingestion order (so each is
persisted exactly once and none is dropped); the persisted sequence splits
into the part written by size-triggered flushes during the run and the
part written by the shutdown flush-all, and after shutdown every buffer is
empty. -/
theorem claim_C1_persisted_exactly_once {α : Type} (capacity : ℕ)
    (msgs : List (DecodeResult α)) (k : String) :
    flushedFor k (saveAllBuffers (runMessages (initState α capacity) msgs)).saved
      = ingestedFor k msgs ∧
    flushedFor k (runMessages (initState α capacity) msgs).saved
        ++ bufD (runMessages (initState α capacity) msgs) k = ingestedFor k msgs ∧
    flushedFor k (saveAllBuffers (runMessages (initState α capacity) msgs)).saved
      = flushedFor k (runMessages (initState α capacity) msgs).saved
        ++ bufD (runMessages (initState α capacity) msgs) k ∧
    bufD (saveAllBuffers (runMessages (initState α capacity) msgs)) k = [] := by
  have hnd : NodupKeys (runMessages (initState α capacity) msgs) :=
    runMessages_nodup msgs _ (by simp [NodupKeys, initState])
  have htr := runMessages_trace msgs (initState α capacity) k
  have hinit : flushedFor k (initState α capacity).saved ++ bufD (initState α capacity) k
      = [] := by
    simp [initState, bufD]
  rw [hinit] at htr
  simp only [List.nil_append] at htr
  have hsplit := saveAllBuffers_flushed (runMessages (initState α capacity) msgs) hnd k
  exact ⟨by rw [hsplit, htr], htr, hsplit,
    saveAllBuffers_bufD (runMessages (initState α capacity) msgs) hnd k⟩

/-- Claim C3: ingesting exactly `capacity` readings for one key triggers
exactly one flush holding exactly those readings in order and leaves the
key present with an empty buffer; ingesting between 1 and `capacity - 1`
readings and then flushing all buffers persists exactly the ingested
readings in order, again leaving the key present with an empty buffer;
saving a key whose buffer is empty or unknown is a no-op (not an error);
and the capacity configured by the source is 100 by default. -/
theorem claim_C3_flush_policy {α : Type} (capacity : ℕ) (k k0 : String)
    (psA psB : List α) (st : ConsumerState α)
    (hk : k ≠ "") (hC : 1 ≤ capacity) (hA : psA.length = capacity)
    (hB1 : 1 ≤ psB.length) (hB : psB.length < capacity)
    (h0 : lookupBuf st.dataBuffer k0 = some [] ∨ lookupBuf st.dataBuffer k0 = none) :
    runMessages (initState α capacity) (msgsFor k psA)
      = (⟨[(k, [])], [⟨k, psA⟩], capacity⟩ : ConsumerState α) ∧
    saveAllBuffers (runMessages (initState α capacity) (msgsFor k psB))
      = (⟨[(k, [])], [⟨k, psB⟩], capacity⟩ : ConsumerState α) ∧
    saveBuffer st k0 = st ∧
    defaultBufferSize = 100 := by
  refine ⟨?_, ?_, ?_, rfl⟩
  · rcases psA with _ | ⟨p, ps⟩
    · simp at hA
      omega
    · simp only [msgsFor, List.map_cons, runMessages]
      by_cases h1 : capacity ≤ 1
      · have hcap1 : capacity = 1 := by omega
        have hps : ps = [] := by
          have : ps.length + 1 = capacity := by simpa using hA
          have hz : ps.length = 0 := by omega
          exact List.length_eq_zero.mp hz
        subst hps
        rw [processMessage_init_flush k capacity p hk h1]
        simp [runMessages, msgsFor]
      · rw [processMessage_init_noflush k capacity p hk h1]
        have hA2 : (1 : ℕ) + ps.length ≤ capacity := by
          simp only [List.length_cons] at hA
          omega
        have := runMessages_singleKey ps k capacity [p] []
          hk (by simpa using h1) (by simpa using hA2)
        rw [show msgsFor k ps = List.map (DecodeResult.ok (some k)) ps from rfl] at this
        rw [this, if_pos (by simp only [List.length_cons] at hA; simp; omega)]
        simp
  · rcases psB with _ | ⟨p, ps⟩
    · simp at hB1
    · have h1 : ¬ capacity ≤ 1 := by
        simp only [List.length_cons] at hB
        omega
      simp only [msgsFor, List.map_cons, runMessages]
      rw [processMessage_init_noflush k capacity p hk h1]
      have hB2 : (1 : ℕ) + ps.length ≤ capacity := by
        simp only [List.length_cons] at hB
        omega
      have := runMessages_singleKey ps k capacity [p] []
        hk (by simpa using h1) (by simpa using hB2)
      rw [show msgsFor k ps = List.map (DecodeResult.ok (some k)) ps from rfl] at this
      rw [this, if_neg (by simp only [List.length_cons] at hB; simp; omega)]
      have hall : saveAllBuffers (⟨[(k, [p] ++ ps)], [], capacity⟩ : ConsumerState α)
          = saveBuffer (⟨[(k, [p] ++ ps)], [], capacity⟩ : ConsumerState α) k := by
        simp [saveAllBuffers]
      rw [hall, saveBuffer_of_cons _ k p ps (by simp)]
      simp [setBuf]
  · rcases h0 with h0 | h0
    · exact saveBuffer_of_empty st k0 h0
    · exact saveBuffer_of_none st k0 h0

/-- Witness for claim C3 at capacity 2, key "EQ-1", runs [0, 1] and [5],
and a state not containing the probed key. -/
theorem claim_C3_flush_policy_witness :
    (("EQ-1" : String) ≠ "" ∧ 1 ≤ 2 ∧ ([0, 1] : List ℕ).length = 2
        ∧ 1 ≤ ([5] : List ℕ).length ∧ ([5] : List ℕ).length < 2
        ∧ (lookupBuf (initState ℕ 2).dataBuffer "EQ-9" = some []
            ∨ lookupBuf (initState ℕ 2).dataBuffer "EQ-9" = none)) ∧
    (runMessages (initState ℕ 2) (msgsFor "EQ-1" [0, 1])
      = (⟨[("EQ-1", [])], [⟨"EQ-1", [0, 1]⟩], 2⟩ : ConsumerState ℕ) ∧
    saveAllBuffers (runMessages (initState ℕ 2) (msgsFor "EQ-1" [5]))
      = (⟨[("EQ-1", [])], [⟨"EQ-1", [5]⟩], 2⟩ : ConsumerState ℕ) ∧
    saveBuffer (initState ℕ 2) "EQ-9" = initState ℕ 2 ∧
    defaultBufferSize = 100) :=
  ⟨⟨by simp, by simp, by simp, by simp, by simp, Or.inr (by simp [initState])⟩,
    claim_C3_flush_policy 2 "EQ-1" "EQ-9" [0, 1] [5] (initState ℕ 2)
      (by simp) (by simp) (by simp) (by simp) (by simp) (Or.inr (by simp [initState]))⟩

/-- Counterexample to the "outcome is logged" conjunct of claim C5: a
well-formed decoded dict that lacks `equipment_id` makes
`data.get('equipment_id')` return `None`, so the `if equipment_id:`
block at line 66 — which contains the only print on the success path
(line 77) — is skipped, and no exception reaches the handler at line 79;
`_process_message` prints nothing at all.  The message is discarded
silently, not logged-and-discarded. -/
theorem claim_C5_counterexample :
    processMessageLog (initState ℕ 100) (DecodeResult.ok none 7) = [] ∧
    pollStep (⟨true, initState ℕ 100⟩ : DriverState ℕ)
        (PollEvent.message (DecodeResult.ok none 7))
      = (⟨true, initState ℕ 100⟩ : DriverState ℕ) :=
  ⟨rfl, rfl⟩

/-- Claim C5 as amended: a polled message whose payload fails to decode
or whose decoded dict lacks the `equipment_id` field leaves the driver
state exactly as it was — no buffer is touched, the processing step
returns normally (it is a total function, the decode exception being
caught), and the loop's `running` flag is unchanged, so polling
continues; the message is discarded in both cases, but the outcome is
logged only when decoding fails (the `except` handler prints the error):
a decoded dict merely lacking `equipment_id` is discarded silently,
printing nothing. -/
theorem claim_C5_malformed_discarded_decode_failure_logged {α : Type}
    (d : DriverState α) (m : DecodeResult α) (st : ConsumerState α)
    (h : m = DecodeResult.failure ∨ ∃ p : α, m = DecodeResult.ok none p) :
    pollStep d (PollEvent.message m) = d ∧
    (m = DecodeResult.failure → processMessageLog st m = [LogLine.errorProcessing]) ∧
    (∀ p : α, m = DecodeResult.ok none p → processMessageLog st m = []) := by
  rcases h with rfl | ⟨p, rfl⟩
  · refine ⟨by cases d; rfl, fun _ => rfl, ?_⟩
    intro q hq
    cases hq
  · refine ⟨by cases d; rfl, ?_, fun _ _ => rfl⟩
    intro hq
    cases hq

/-- Witness for the amended claim C5 on a running driver and a decoded
message without `equipment_id` (the silently-discarded case). -/
theorem claim_C5_malformed_discarded_decode_failure_logged_witness :
    ((DecodeResult.ok none 7 : DecodeResult ℕ) = DecodeResult.failure
        ∨ ∃ p : ℕ, (DecodeResult.ok none 7 : DecodeResult ℕ) = DecodeResult.ok none p) ∧
    (pollStep (⟨true, initState ℕ 100⟩ : DriverState ℕ)
        (PollEvent.message (DecodeResult.ok none 7))
      = (⟨true, initState ℕ 100⟩ : DriverState ℕ) ∧
    ((DecodeResult.ok none 7 : DecodeResult ℕ) = DecodeResult.failure →
      processMessageLog (initState ℕ 100) (DecodeResult.ok none 7)
        = [LogLine.errorProcessing]) ∧
    (∀ p : ℕ, (DecodeResult.ok none 7 : DecodeResult ℕ) = DecodeResult.ok none p →
      processMessageLog (initState ℕ 100) (DecodeResult.ok none 7) = [])) :=
  ⟨Or.inr ⟨7, rfl⟩,
    claim_C5_malformed_discarded_decode_failure_logged
      (⟨true, initState ℕ 100⟩ : DriverState ℕ) (DecodeResult.ok none 7)
      (initState ℕ 100) (Or.inr ⟨7, rfl⟩)⟩

/-- Claim C10: processing a message keyed to `k`, and saving `k`'s buffer
(the single-key flush, which is also the per-key step of the shutdown
flush-all), leave the buffer of every other key unchanged — same
contents, same order. -/
theorem claim_C10_other_buffers_unchanged {α : Type} (st : ConsumerState α)
    (k k2 : String) (p : α) (h : k2 ≠ k) :
    lookupBuf (processMessage st (DecodeResult.ok (some k) p)).dataBuffer k2
      = lookupBuf st.dataBuffer k2 ∧
    lookupBuf (saveBuffer st k).dataBuffer k2 = lookupBuf st.dataBuffer k2 := by
  constructor
  · by_cases hk : k = ""
    · simp [processMessage, hk]
    · simp only [processMessage, if_neg hk]
      split
      · rw [saveBuffer_lookup_ne _ k k2 h]
        exact lookupBuf_setBuf_ne st.dataBuffer k k2 _ h
      · exact lookupBuf_setBuf_ne st.dataBuffer k k2 _ h
  · exact saveBuffer_lookup_ne st k k2 h

/-- Witness for claim C10 on a one-key state, probing a different key. -/
theorem claim_C10_other_buffers_unchanged_witness :
    ("EQ-2" : String) ≠ "EQ-1" ∧
    (lookupBuf (processMessage (⟨[("EQ-2", [7])], [], 100⟩ : ConsumerState ℕ)
        (DecodeResult.ok (some "EQ-1") 9)).dataBuffer "EQ-2"
      = lookupBuf (⟨[("EQ-2", [7])], [], 100⟩ : ConsumerState ℕ).dataBuffer "EQ-2" ∧
    lookupBuf (saveBuffer (⟨[("EQ-2", [7])], [], 100⟩ : ConsumerState ℕ) "EQ-1").dataBuffer "EQ-2"
      = lookupBuf (⟨[("EQ-2", [7])], [], 100⟩ : ConsumerState ℕ).dataBuffer "EQ-2") :=
  ⟨by simp,
    claim_C10_other_buffers_unchanged (⟨[("EQ-2", [7])], [], 100⟩ : ConsumerState ℕ)
      "EQ-1" "EQ-2" 9 (by simp)⟩

/-!
Lemmas about the health dynamics of the signal generator.
-/

theorem healthStep_nonneg (health rate : ℚ) : 0 ≤ healthStep health rate :=
  le_max_left 0 _

theorem healthStep_le_self (health rate : ℚ) (h0 : 0 ≤ health) (hr : 0 ≤ rate) :
    healthStep health rate ≤ health :=
  max_le h0 (by linarith)

theorem healthStep_le_100 (health rate : ℚ) (hh : health ≤ 100) (hr : 0 ≤ rate) :
    healthStep health rate ≤ 100 :=
  max_le (by norm_num) (by linarith)

theorem healthStep_absorbing (rate : ℚ) (hr : 0 ≤ rate) : healthStep 0 rate = 0 :=
  max_eq_left (by linarith)

theorem generateSensorReading_state (sinq : ℕ → ℚ) (s : EquipmentState) (r : TickRandoms)
    (t1 t2 : Instant) :
    (generateSensorReading sinq s r t1 t2).2
      = ⟨s.equipmentId, healthStep s.healthScore s.degradationRate, s.degradationRate⟩ :=
  rfl

theorem runTicks_degradationRate (sinq : ℕ → ℚ) (ts : List TickInput) :
    ∀ s : EquipmentState, (runTicks sinq s ts).degradationRate = s.degradationRate := by
  induction ts with
  | nil => intro s; rfl
  | cons t ts ih =>
    intro s
    obtain ⟨r, t1, t2⟩ := t
    rw [runTicks, ih, generateSensorReading_state]

theorem runTicks_health_bounds (sinq : ℕ → ℚ) (ts : List TickInput) :
    ∀ s : EquipmentState, 0 ≤ s.degradationRate → 0 ≤ s.healthScore →
      s.healthScore ≤ 100 →
    0 ≤ (runTicks sinq s ts).healthScore ∧ (runTicks sinq s ts).healthScore ≤ 100 := by
  induction ts with
  | nil => intro s _ h0 h100; exact ⟨h0, h100⟩
  | cons t ts ih =>
    intro s hr h0 h100
    obtain ⟨r, t1, t2⟩ := t
    rw [runTicks]
    refine ih _ ?_ ?_ ?_
    · rw [generateSensorReading_state]
      exact hr
    · rw [generateSensorReading_state]
      exact healthStep_nonneg _ _
    · rw [generateSensorReading_state]
      exact healthStep_le_100 _ _ h100 hr

theorem runTicks_health_zero (sinq : ℕ → ℚ) (ts : List TickInput) :
    ∀ s : EquipmentState, 0 ≤ s.degradationRate → s.healthScore = 0 →
    (runTicks sinq s ts).healthScore = 0 := by
  induction ts with
  | nil => intro s _ h0; exact h0
  | cons t ts ih =>
    intro s hr h0
    obtain ⟨r, t1, t2⟩ := t
    rw [runTicks]
    refine ih _ ?_ ?_
    · rw [generateSensorReading_state]
      exact hr
    · rw [generateSensorReading_state]
      simp only [h0]
      exact healthStep_absorbing _ hr

theorem runTicks_health_closedForm (sinq : ℕ → ℚ) (ts : List TickInput) :
    ∀ s : EquipmentState, 0 ≤ s.degradationRate → 0 ≤ s.healthScore →
    (runTicks sinq s ts).healthScore
      = max 0 (s.healthScore - ts.length * s.degradationRate) := by
  induction ts with
  | nil =>
    intro s _ h0
    simp [runTicks, max_eq_right h0]
  | cons t ts ih =>
    intro s hr h0
    obtain ⟨r, t1, t2⟩ := t
    rw [runTicks, ih _ (by rw [generateSensorReading_state]; exact hr)
      (by rw [generateSensorReading_state]; exact healthStep_nonneg _ _)]
    rw [generateSensorReading_state]
    show max 0 (healthStep s.healthScore s.degradationRate
        - ts.length * s.degradationRate)
      = max 0 (s.healthScore - (ts.length + 1 : ℕ) * s.degradationRate)
    have hlen : (0 : ℚ) ≤ (ts.length : ℚ) * s.degradationRate :=
      mul_nonneg (Nat.cast_nonneg _) hr
    rcases le_total (s.healthScore - s.degradationRate) 0 with hneg | hpos
    · rw [show healthStep s.healthScore s.degradationRate
          = max 0 (s.healthScore - s.degradationRate) from rfl]
      rw [max_eq_left hneg]
      rw [max_eq_left (by linarith)]
      rw [max_eq_left (by push_cast; nlinarith)]
    · rw [show healthStep s.healthScore s.degradationRate
          = max 0 (s.healthScore - s.degradationRate) from rfl]
      rw [max_eq_right hpos]
      congr 1
      push_cast
      ring

/-- Claim C2: for a simulator as constructed (degradation rate one
`uniform(0.01, 0.05)` draw) and any number of ticks, the health score
stays within `[0, 100]`, the next tick never increases it, and once it is
0 it stays 0 for all subsequent ticks. -/
theorem claim_C2_health_monotone_bounded (sinq : ℕ → ℚ) (eid : String) (u : ℚ)
    (ticks more : List TickInput) (r : TickRandoms) (t1 t2 : Instant)
    (hu0 : 0 ≤ u) (hu1 : u ≤ 1) :
    (0 ≤ (runTicks sinq (mkSimulator eid u) ticks).healthScore ∧
      (runTicks sinq (mkSimulator eid u) ticks).healthScore ≤ 100) ∧
    (generateSensorReading sinq (runTicks sinq (mkSimulator eid u) ticks) r t1 t2).2.healthScore
      ≤ (runTicks sinq (mkSimulator eid u) ticks).healthScore ∧
    ((runTicks sinq (mkSimulator eid u) ticks).healthScore = 0 →
      (runTicks sinq (runTicks sinq (mkSimulator eid u) ticks) more).healthScore = 0) := by
  have hr : 0 ≤ (mkSimulator eid u).degradationRate := by
    have h25 : (0 : ℚ) ≤ (1 / 25) * u := by
      have := mul_nonneg (by norm_num : (0 : ℚ) ≤ 1 / 25) hu0
      linarith
    simp only [mkSimulator, uniform]
    norm_num
    linarith
  have hbounds := runTicks_health_bounds sinq ticks (mkSimulator eid u) hr
    (by norm_num [mkSimulator]) (by norm_num [mkSimulator])
  have hrate : (runTicks sinq (mkSimulator eid u) ticks).degradationRate
      = (mkSimulator eid u).degradationRate := runTicks_degradationRate sinq ticks _
  refine ⟨hbounds, ?_, ?_⟩
  · rw [generateSensorReading_state]
    exact healthStep_le_self _ _ hbounds.1 (by rw [hrate]; exact hr)
  · intro h0
    exact runTicks_health_zero sinq more _ (by rw [hrate]; exact hr) h0

/-- Witness for claim C2 with the construction draw 0 and an empty tick
sequence. -/
theorem claim_C2_health_monotone_bounded_witness :
    ((0 : ℚ) ≤ 0 ∧ (0 : ℚ) ≤ 1) ∧
    ((0 ≤ (runTicks sinqZero (mkSimulator "EQ-1" 0) []).healthScore ∧
      (runTicks sinqZero (mkSimulator "EQ-1" 0) []).healthScore ≤ 100) ∧
    (generateSensorReading sinqZero (runTicks sinqZero (mkSimulator "EQ-1" 0) [])
        quietRandoms instant0 instant0).2.healthScore
      ≤ (runTicks sinqZero (mkSimulator "EQ-1" 0) []).healthScore ∧
    ((runTicks sinqZero (mkSimulator "EQ-1" 0) []).healthScore = 0 →
      (runTicks sinqZero (runTicks sinqZero (mkSimulator "EQ-1" 0) [])
        [quietTick]).healthScore = 0)) :=
  ⟨⟨le_refl 0, by norm_num⟩,
    claim_C2_health_monotone_bounded sinqZero "EQ-1" 0 [] [quietTick]
      quietRandoms instant0 instant0 (le_refl 0) (by norm_num)⟩

/-- Claim C9: a generator started at health 100 with degradation rate
0.05 reaches health 0 after 2000 ticks (and the unclamped value at the
2000th tick, health after 1999 ticks minus the rate, is at most 0), and
health remains 0 on every subsequent tick. -/
theorem claim_C9_health_zero_after_2000_ticks (sinq : ℕ → ℚ) (eid : String)
    (ticks pre more : List TickInput)
    (h2000 : ticks.length = 2000) (h1999 : pre.length = 1999) :
    (runTicks sinq (⟨eid, 100, 1 / 20⟩ : EquipmentState) ticks).healthScore = 0 ∧
    (runTicks sinq (⟨eid, 100, 1 / 20⟩ : EquipmentState) pre).healthScore - 1 / 20 ≤ 0 ∧
    (runTicks sinq (runTicks sinq (⟨eid, 100, 1 / 20⟩ : EquipmentState) ticks)
      more).healthScore = 0 := by
  have hr : (0 : ℚ) ≤ 1 / 20 := by norm_num
  have hzero : (runTicks sinq (⟨eid, 100, 1 / 20⟩ : EquipmentState) ticks).healthScore
      = 0 := by
    rw [runTicks_health_closedForm sinq ticks _ hr (by norm_num), h2000]
    norm_num
  refine ⟨hzero, ?_, ?_⟩
  · rw [runTicks_health_closedForm sinq pre _ hr (by norm_num), h1999]
    norm_num
  · exact runTicks_health_zero sinq more _
      (by rw [runTicks_degradationRate]; norm_num) hzero

/-- Witness for claim C9 on replicated quiet tick inputs of lengths 2000,
1999 and 1. -/
theorem claim_C9_health_zero_after_2000_ticks_witness :
    ((List.replicate 2000 quietTick).length = 2000
        ∧ (List.replicate 1999 quietTick).length = 1999) ∧
    ((runTicks sinqZero (⟨"EQ-1", 100, 1 / 20⟩ : EquipmentState)
        (List.replicate 2000 quietTick)).healthScore = 0 ∧
    (runTicks sinqZero (⟨"EQ-1", 100, 1 / 20⟩ : EquipmentState)
        (List.replicate 1999 quietTick)).healthScore - 1 / 20 ≤ 0 ∧
    (runTicks sinqZero (runTicks sinqZero (⟨"EQ-1", 100, 1 / 20⟩ : EquipmentState)
        (List.replicate 2000 quietTick)) [quietTick]).healthScore = 0) :=
  ⟨⟨List.length_replicate 2000 quietTick, List.length_replicate 1999 quietTick⟩,
    claim_C9_health_zero_after_2000_ticks sinqZero "EQ-1"
      (List.replicate 2000 quietTick) (List.replicate 1999 quietTick) [quietTick]
      (List.length_replicate 2000 quietTick) (List.length_replicate 1999 quietTick)⟩

/-- Counterexample to claim C4 as stated: with the device state and the
random draws fixed, two invocations whose wall-clock reads differ (here
only in the instant recorded as the timestamp) produce different
SensorReadings, because `generate_sensor_reading` reads `datetime.now()`,
which is neither internal state nor the random source. -/
theorem claim_C4_counterexample :
    generateSensorReading sinqZero (⟨"EQ-1", 100, 1 / 100⟩ : EquipmentState)
        quietRandoms (⟨0, 0, 0⟩ : Instant) instant0
      ≠ generateSensorReading sinqZero (⟨"EQ-1", 100, 1 / 100⟩ : EquipmentState)
        quietRandoms (⟨1, 0, 0⟩ : Instant) instant0 := by
  intro h
  have ht : (⟨0, 0, 0⟩ : Instant) = (⟨1, 0, 0⟩ : Instant) :=
    congrArg (fun z => z.1.timestamp) h
  simp at ht

/-- Claim C4 as amended: the tick is a deterministic function of the
device state, the random draws, and the two wall-clock instants it reads;
any two invocations agreeing on all of those produce identical readings
and successor states. -/
theorem claim_C4_deterministic_given_clock (sinq : ℕ → ℚ) (s s2 : EquipmentState)
    (r r2 : TickRandoms) (t1 t1b t2 t2b : Instant)
    (hs : s = s2) (hr : r = r2) (h1 : t1 = t1b) (h2 : t2 = t2b) :
    generateSensorReading sinq s r t1 t2 = generateSensorReading sinq s2 r2 t1b t2b := by
  subst hs
  subst hr
  subst h1
  subst h2
  rfl

/-- Witness for the amended claim C4 at concrete equal inputs. -/
theorem claim_C4_deterministic_given_clock_witness :
    ((⟨"EQ-1", 100, 1 / 100⟩ : EquipmentState) = ⟨"EQ-1", 100, 1 / 100⟩
        ∧ quietRandoms = quietRandoms ∧ instant0 = instant0) ∧
    generateSensorReading sinqZero (⟨"EQ-1", 100, 1 / 100⟩ : EquipmentState)
        quietRandoms instant0 instant0
      = generateSensorReading sinqZero (⟨"EQ-1", 100, 1 / 100⟩ : EquipmentState)
        quietRandoms instant0 instant0 :=
  ⟨⟨rfl, rfl, rfl⟩,
    claim_C4_deterministic_given_clock sinqZero
      (⟨"EQ-1", 100, 1 / 100⟩ : EquipmentState) (⟨"EQ-1", 100, 1 / 100⟩ : EquipmentState)
      quietRandoms quietRandoms instant0 instant0 instant0 instant0 rfl rfl rfl rfl⟩

/-- Counterexample to the "same timestamp" half of claim C6:
`generate_sensor_reading` reads the clock twice (line 37 for the recorded
timestamp, line 44 for the multipliers), so a tick whose two clock reads
fall on different weekdays does not equal the tick that would take the
multipliers from the recorded timestamp's instant — here the two differ
in the vibration channel, whose day-factor is 1.1 on Monday and 0.9 on
Saturday. -/
theorem claim_C6_counterexample :
    generateSensorReading sinqZero (⟨"EQ-1", 100, 1 / 100⟩ : EquipmentState)
        quietRandoms instant0 (⟨0, 0, 5⟩ : Instant)
      ≠ generateSensorReading sinqZero (⟨"EQ-1", 100, 1 / 100⟩ : EquipmentState)
        quietRandoms instant0 instant0 := by
  intro h
  have hv := congrArg (fun z => z.1.vibration) h
  have hA : (generateSensorReading sinqZero (⟨"EQ-1", 100, 1 / 100⟩ : EquipmentState)
      quietRandoms instant0 (⟨0, 0, 5⟩ : Instant)).1.vibration = 1 / 25 := by
    norm_num [generateSensorReading, channelsPreAnomaly, generateValue, uniform,
      healthStep, healthFactorOf, anomalyProb, pOfFactor, dayFactor, timeFactor,
      sinqZero, quietRandoms, instant0, pyRound, roundHalfEven, round_eq]
  have hB : (generateSensorReading sinqZero (⟨"EQ-1", 100, 1 / 100⟩ : EquipmentState)
      quietRandoms instant0 instant0).1.vibration = 3 / 50 := by
    norm_num [generateSensorReading, channelsPreAnomaly, generateValue, uniform,
      healthStep, healthFactorOf, anomalyProb, pOfFactor, dayFactor, timeFactor,
      sinqZero, quietRandoms, instant0, pyRound, roundHalfEven, round_eq]
  dsimp only at hv
  rw [hA, hB] at hv
  norm_num at hv

/-- Claim C6 as amended: within one tick all four channels are derived
from the single post-decrement health snapshot (one shared value of
`(100 - health) / 100`), and all cyclical multipliers come from the
single second clock read — which is a different `datetime.now()` call
than the one recorded as the reading's timestamp. -/
theorem claim_C6_amended_shared_snapshot (sinq : ℕ → ℚ) (s : EquipmentState)
    (r : TickRandoms) (t1 t2 : Instant)
    (hno : ¬ r.uAnomTrigger < anomalyProb (healthStep s.healthScore s.degradationRate)) :
    (generateSensorReading sinq s r t1 t2).1.timestamp = t1 ∧
    (generateSensorReading sinq s r t1 t2).1.healthScore
      = pyRound (healthStep s.healthScore s.degradationRate) 2 ∧
    (generateSensorReading sinq s r t1 t2).1.temperature
      = pyRound (generateValue (60, 80) (timeFactor sinq t2.hour)
          (healthFactorOf (healthStep s.healthScore s.degradationRate) * 30) 2
          r.uTempBase r.uTempNoise) 2 ∧
    (generateSensorReading sinq s r t1 t2).1.vibration
      = pyRound (generateValue (1 / 10, 1 / 2) (dayFactor t2.weekday)
          (healthFactorOf (healthStep s.healthScore s.degradationRate) * (3 / 2)) (1 / 20)
          r.uVibBase r.uVibNoise) 3 ∧
    (generateSensorReading sinq s r t1 t2).1.pressure
      = pyRound (generateValue (95, 105) 1
          (healthFactorOf (healthStep s.healthScore s.degradationRate) * (-15)) 3
          r.uPressBase r.uPressNoise) 2 ∧
    (generateSensorReading sinq s r t1 t2).1.noiseLevel
      = pyRound (generateValue (60, 75) (dayFactor t2.weekday)
          (healthFactorOf (healthStep s.healthScore s.degradationRate) * 25) 2
          r.uNoiseBase r.uNoiseNoise) 2 := by
  simp [generateSensorReading, channelsPreAnomaly, if_neg hno]

/-- Witness for the amended claim C6 on a quiet tick. -/
theorem claim_C6_amended_shared_snapshot_witness :
    (¬ quietRandoms.uAnomTrigger
        < anomalyProb (healthStep (100 : ℚ) (1 / 100))) ∧
    ((generateSensorReading sinqZero (⟨"EQ-1", 100, 1 / 100⟩ : EquipmentState)
        quietRandoms instant0 instant0).1.timestamp = instant0 ∧
    (generateSensorReading sinqZero (⟨"EQ-1", 100, 1 / 100⟩ : EquipmentState)
        quietRandoms instant0 instant0).1.healthScore
      = pyRound (healthStep (100 : ℚ) (1 / 100)) 2 ∧
    (generateSensorReading sinqZero (⟨"EQ-1", 100, 1 / 100⟩ : EquipmentState)
        quietRandoms instant0 instant0).1.temperature
      = pyRound (generateValue (60, 80) (timeFactor sinqZero instant0.hour)
          (healthFactorOf (healthStep (100 : ℚ) (1 / 100)) * 30) 2
          quietRandoms.uTempBase quietRandoms.uTempNoise) 2 ∧
    (generateSensorReading sinqZero (⟨"EQ-1", 100, 1 / 100⟩ : EquipmentState)
        quietRandoms instant0 instant0).1.vibration
      = pyRound (generateValue (1 / 10, 1 / 2) (dayFactor instant0.weekday)
          (healthFactorOf (healthStep (100 : ℚ) (1 / 100)) * (3 / 2)) (1 / 20)
          quietRandoms.uVibBase quietRandoms.uVibNoise) 3 ∧
    (generateSensorReading sinqZero (⟨"EQ-1", 100, 1 / 100⟩ : EquipmentState)
        quietRandoms instant0 instant0).1.pressure
      = pyRound (generateValue (95, 105) 1
          (healthFactorOf (healthStep (100 : ℚ) (1 / 100)) * (-15)) 3
          quietRandoms.uPressBase quietRandoms.uPressNoise) 2 ∧
    (generateSensorReading sinqZero (⟨"EQ-1", 100, 1 / 100⟩ : EquipmentState)
        quietRandoms instant0 instant0).1.noiseLevel
      = pyRound (generateValue (60, 75) (dayFactor instant0.weekday)
          (healthFactorOf (healthStep (100 : ℚ) (1 / 100)) * 25) 2
          quietRandoms.uNoiseBase quietRandoms.uNoiseNoise) 2) :=
  ⟨by norm_num [quietRandoms, anomalyProb, pOfFactor, healthFactorOf, healthStep],
    claim_C6_amended_shared_snapshot sinqZero (⟨"EQ-1", 100, 1 / 100⟩ : EquipmentState)
      quietRandoms instant0 instant0
      (by norm_num [quietRandoms, anomalyProb, pOfFactor, healthFactorOf, healthStep])⟩

/-- Claim C7: each pre-anomaly channel is sampled exactly as the
specification's formula `uniform(normal_range) * cyclical_multiplier
+ health_effect + uniform(-noise, noise)`, with health effects `30·hf`,
`1.5·hf`, `-15·hf` and `25·hf` — affine in `hf = (100 - health)/100`,
strictly increasing in `hf` for temperature, vibration and noise and
strictly decreasing for pressure — and on a tick where no anomaly fires
the emitted reading's channels are exactly these samples, rounded. -/
theorem claim_C7_sampling_formula (sinq : ℕ → ℚ) (health f1 f2 : ℚ) (t : Instant)
    (r : TickRandoms) (s : EquipmentState) (t1 t2 : Instant)
    (hf : f1 < f2)
    (hno : ¬ r.uAnomTrigger < anomalyProb (healthStep s.healthScore s.degradationRate)) :
    (channelsPreAnomaly sinq health t r).temperature
      = specSample (60, 80) (timeFactor sinq t.hour) (healthFactorOf health * 30) 2
          r.uTempBase r.uTempNoise ∧
    (channelsPreAnomaly sinq health t r).vibration
      = specSample (1 / 10, 1 / 2) (dayFactor t.weekday)
          (healthFactorOf health * (3 / 2)) (1 / 20) r.uVibBase r.uVibNoise ∧
    (channelsPreAnomaly sinq health t r).pressure
      = specSample (95, 105) 1 (healthFactorOf health * (-15)) 3
          r.uPressBase r.uPressNoise ∧
    (channelsPreAnomaly sinq health t r).noiseLevel
      = specSample (60, 75) (dayFactor t.weekday) (healthFactorOf health * 25) 2
          r.uNoiseBase r.uNoiseNoise ∧
    (f1 * 30 < f2 * 30 ∧ f1 * (3 / 2) < f2 * (3 / 2) ∧ f1 * 25 < f2 * 25
      ∧ f2 * (-15) < f1 * (-15)) ∧
    ((generateSensorReading sinq s r t1 t2).1.temperature
        = pyRound (channelsPreAnomaly sinq (healthStep s.healthScore s.degradationRate)
            t2 r).temperature 2 ∧
      (generateSensorReading sinq s r t1 t2).1.vibration
        = pyRound (channelsPreAnomaly sinq (healthStep s.healthScore s.degradationRate)
            t2 r).vibration 3 ∧
      (generateSensorReading sinq s r t1 t2).1.pressure
        = pyRound (channelsPreAnomaly sinq (healthStep s.healthScore s.degradationRate)
            t2 r).pressure 2 ∧
      (generateSensorReading sinq s r t1 t2).1.noiseLevel
        = pyRound (channelsPreAnomaly sinq (healthStep s.healthScore s.degradationRate)
            t2 r).noiseLevel 2) := by
  refine ⟨rfl, rfl, rfl, rfl,
    ⟨by linarith, by linarith, by linarith, by linarith⟩, ?_⟩
  simp [generateSensorReading, if_neg hno]

/-- Witness for claim C7 on a quiet tick with factor pair 0 < 1. -/
theorem claim_C7_sampling_formula_witness :
    ((0 : ℚ) < 1
      ∧ ¬ quietRandoms.uAnomTrigger
          < anomalyProb (healthStep (100 : ℚ) (1 / 100))) ∧
    ((channelsPreAnomaly sinqZero (50 : ℚ) instant0 quietRandoms).temperature
      = specSample (60, 80) (timeFactor sinqZero instant0.hour)
          (healthFactorOf (50 : ℚ) * 30) 2 quietRandoms.uTempBase quietRandoms.uTempNoise ∧
    (channelsPreAnomaly sinqZero (50 : ℚ) instant0 quietRandoms).vibration
      = specSample (1 / 10, 1 / 2) (dayFactor instant0.weekday)
          (healthFactorOf (50 : ℚ) * (3 / 2)) (1 / 20)
          quietRandoms.uVibBase quietRandoms.uVibNoise ∧
    (channelsPreAnomaly sinqZero (50 : ℚ) instant0 quietRandoms).pressure
      = specSample (95, 105) 1 (healthFactorOf (50 : ℚ) * (-15)) 3
          quietRandoms.uPressBase quietRandoms.uPressNoise ∧
    (channelsPreAnomaly sinqZero (50 : ℚ) instant0 quietRandoms).noiseLevel
      = specSample (60, 75) (dayFactor instant0.weekday) (healthFactorOf (50 : ℚ) * 25) 2
          quietRandoms.uNoiseBase quietRandoms.uNoiseNoise ∧
    ((0 : ℚ) * 30 < 1 * 30 ∧ (0 : ℚ) * (3 / 2) < 1 * (3 / 2)
      ∧ (0 : ℚ) * 25 < 1 * 25 ∧ (1 : ℚ) * (-15) < 0 * (-15)) ∧
    ((generateSensorReading sinqZero (⟨"EQ-1", 100, 1 / 100⟩ : EquipmentState)
          quietRandoms instant0 instant0).1.temperature
        = pyRound (channelsPreAnomaly sinqZero (healthStep (100 : ℚ) (1 / 100))
            instant0 quietRandoms).temperature 2 ∧
      (generateSensorReading sinqZero (⟨"EQ-1", 100, 1 / 100⟩ : EquipmentState)
          quietRandoms instant0 instant0).1.vibration
        = pyRound (channelsPreAnomaly sinqZero (healthStep (100 : ℚ) (1 / 100))
            instant0 quietRandoms).vibration 3 ∧
      (generateSensorReading sinqZero (⟨"EQ-1", 100, 1 / 100⟩ : EquipmentState)
          quietRandoms instant0 instant0).1.pressure
        = pyRound (channelsPreAnomaly sinqZero (healthStep (100 : ℚ) (1 / 100))
            instant0 quietRandoms).pressure 2 ∧
      (generateSensorReading sinqZero (⟨"EQ-1", 100, 1 / 100⟩ : EquipmentState)
          quietRandoms instant0 instant0).1.noiseLevel
        = pyRound (channelsPreAnomaly sinqZero (healthStep (100 : ℚ) (1 / 100))
            instant0 quietRandoms).noiseLevel 2)) :=
  ⟨⟨by norm_num,
      by norm_num [quietRandoms, anomalyProb, pOfFactor, healthFactorOf, healthStep]⟩,
    claim_C7_sampling_formula sinqZero (50 : ℚ) 0 1 instant0 quietRandoms
      (⟨"EQ-1", 100, 1 / 100⟩ : EquipmentState) instant0 instant0 (by norm_num)
      (by norm_num [quietRandoms, anomalyProb, pOfFactor, healthFactorOf, healthStep])⟩

/-- Claim C8: the per-tick anomaly probability `0.01 + hf * 0.1` is
strictly increasing in the degradation factor `hf` (hence strictly larger
at any lower health score); the anomaly channel is chosen by a uniform
index into the four-element channel list, whose entries are distinct and
in bijection with the indices, so the channel choice is uniform over the
four channels; and whichever channel is selected, the additive excursion
strictly worsens that channel's value — it raises temperature, vibration
and noise and lowers pressure — while the temperature case is shown to
leave the other channels untouched. -/
theorem claim_C8_anomaly_direction (h1 h2 f1 f2 u : ℚ) (c : Channels)
    (hh : h1 < h2) (hf : f1 < f2) (hu : 0 ≤ u) :
    anomalyProb h2 < anomalyProb h1 ∧
    pOfFactor f1 < pOfFactor f2 ∧
    Function.Injective chooseChannel ∧
    (∀ ch : Channel, ∃ i : Fin 4, chooseChannel i = ch) ∧
    anomalyChannels.Nodup ∧
    anomalyChannels.length = 4 ∧
    ((applyAnomaly Channel.temperature u c).temperature > c.temperature ∧
      (applyAnomaly Channel.temperature u c).vibration = c.vibration ∧
      (applyAnomaly Channel.temperature u c).pressure = c.pressure ∧
      (applyAnomaly Channel.temperature u c).noiseLevel = c.noiseLevel) ∧
    (applyAnomaly Channel.vibration u c).vibration > c.vibration ∧
    (applyAnomaly Channel.pressure u c).pressure < c.pressure ∧
    (applyAnomaly Channel.noiseLevel u c).noiseLevel > c.noiseLevel := by
  have h20u : (0 : ℚ) ≤ 20 * u := by linarith [mul_nonneg (by norm_num : (0:ℚ) ≤ 20) hu]
  have h32u : (0 : ℚ) ≤ (3 / 2) * u := by
    linarith [mul_nonneg (by norm_num : (0:ℚ) ≤ 3 / 2) hu]
  have h10u : (0 : ℚ) ≤ 10 * u := by linarith [mul_nonneg (by norm_num : (0:ℚ) ≤ 10) hu]
  refine ⟨?_, ?_, ?_, ?_, by decide, rfl, ⟨?_, rfl, rfl, rfl⟩, ?_, ?_, ?_⟩
  · simp only [anomalyProb, pOfFactor, healthFactorOf]
    linarith
  · simp only [pOfFactor]
    linarith
  · decide
  · intro ch
    cases ch with
    | temperature => exact ⟨0, rfl⟩
    | vibration => exact ⟨1, rfl⟩
    | pressure => exact ⟨2, rfl⟩
    | noiseLevel => exact ⟨3, rfl⟩
  · simp only [applyAnomaly, uniform]
    linarith
  · simp only [applyAnomaly, uniform]
    linarith
  · simp only [applyAnomaly, uniform]
    linarith
  · simp only [applyAnomaly, uniform]
    linarith

/-- Witness for claim C8 at healths 0 < 1, factors 0 < 1, magnitude draw
0 and the zero channel tuple. -/
theorem claim_C8_anomaly_direction_witness :
    ((0 : ℚ) < 1 ∧ (0 : ℚ) < 1 ∧ (0 : ℚ) ≤ 0) ∧
    (anomalyProb 1 < anomalyProb 0 ∧
    pOfFactor 0 < pOfFactor 1 ∧
    Function.Injective chooseChannel ∧
    (∀ ch : Channel, ∃ i : Fin 4, chooseChannel i = ch) ∧
    anomalyChannels.Nodup ∧
    anomalyChannels.length = 4 ∧
    ((applyAnomaly Channel.temperature 0 (⟨0, 0, 0, 0⟩ : Channels)).temperature
        > (⟨0, 0, 0, 0⟩ : Channels).temperature ∧
      (applyAnomaly Channel.temperature 0 (⟨0, 0, 0, 0⟩ : Channels)).vibration
        = (⟨0, 0, 0, 0⟩ : Channels).vibration ∧
      (applyAnomaly Channel.temperature 0 (⟨0, 0, 0, 0⟩ : Channels)).pressure
        = (⟨0, 0, 0, 0⟩ : Channels).pressure ∧
      (applyAnomaly Channel.temperature 0 (⟨0, 0, 0, 0⟩ : Channels)).noiseLevel
        = (⟨0, 0, 0, 0⟩ : Channels).noiseLevel) ∧
    (applyAnomaly Channel.vibration 0 (⟨0, 0, 0, 0⟩ : Channels)).vibration
      > (⟨0, 0, 0, 0⟩ : Channels).vibration ∧
    (applyAnomaly Channel.pressure 0 (⟨0, 0, 0, 0⟩ : Channels)).pressure
      < (⟨0, 0, 0, 0⟩ : Channels).pressure ∧
    (applyAnomaly Channel.noiseLevel 0 (⟨0, 0, 0, 0⟩ : Channels)).noiseLevel
      > (⟨0, 0, 0, 0⟩ : Channels).noiseLevel) :=
  ⟨⟨by norm_num, by norm_num, le_refl 0⟩,
    claim_C8_anomaly_direction 0 1 0 1 0 (⟨0, 0, 0, 0⟩ : Channels)
      (by norm_num) (by norm_num) (le_refl 0)⟩

example : healthStep 100 (1 / 20) = 1999 / 20 := by norm_num [healthStep]
example : pyRound (4015 / 100000) 3 = 40 / 1000 := by
  norm_num [pyRound, roundHalfEven, round_eq]
example : dayFactor 5 = 9 / 10 := by norm_num [dayFactor]

end PMPipeline
